import Mathlib

/-!
Shallow embedding of the CUDA N-body simulation kernel (`kernel.cu` of
terrynsun/CIS565-CUDA-Introduction, Project 1 N-body part) over the reals.

Conventions of the embedding:
* `glm::vec3` becomes the structure `Vec3` with real components; the glm
  componentwise operations (`+`, `-`, `*` and `/` by a scalar, `dot`, `cross`,
  `length`, `distance`, `normalize`) are translated literally.
* Device arrays become functions `ℕ → Vec3`; a CUDA kernel launch over `N`
  threads, each of which writes only cells of its own index, becomes either a
  pointwise function (when each thread writes exactly its own cell) or a fold
  over an arbitrary schedule (a `List ℕ` of thread indices) when we want to
  reason about order-independence of the parallel dispatch.
* `unsigned int` arithmetic in `hash` is `ℕ` taken `% 2^32` after every
  operation.
* The thrust pseudo-random engine seeded in `generateRandomVec3` is external
  library code; it is modelled by a parameter `draw : ℕ → ℕ → ℝ` giving, for
  each seed, the successive values produced by
  `thrust::uniform_real_distribution<float>(-1, 1)` (so draws lie in [-1, 1]).
-/

namespace Nbody

/-- Vector with three real components, the embedding of `glm::vec3`. -/
@[ext] structure Vec3 where
  x : ℝ
  y : ℝ
  z : ℝ

namespace Vec3

instance : Zero Vec3 := ⟨⟨0, 0, 0⟩⟩

instance : Add Vec3 := ⟨fun a b => ⟨a.x + b.x, a.y + b.y, a.z + b.z⟩⟩

instance : Sub Vec3 := ⟨fun a b => ⟨a.x - b.x, a.y - b.y, a.z - b.z⟩⟩

instance : Neg Vec3 := ⟨fun a => ⟨-a.x, -a.y, -a.z⟩⟩

/-- glm `vec * scalar` (componentwise). -/
instance : HMul Vec3 ℝ Vec3 := ⟨fun v t => ⟨v.x * t, v.y * t, v.z * t⟩⟩

/-- glm `scalar * vec` (componentwise). -/
instance : HMul ℝ Vec3 Vec3 := ⟨fun t v => ⟨t * v.x, t * v.y, t * v.z⟩⟩

/-- glm `vec / scalar` (componentwise). -/
noncomputable instance : HDiv Vec3 ℝ Vec3 := ⟨fun v t => ⟨v.x / t, v.y / t, v.z / t⟩⟩

@[simp] theorem zero_x : (0 : Vec3).x = 0 := rfl

@[simp] theorem zero_y : (0 : Vec3).y = 0 := rfl

@[simp] theorem zero_z : (0 : Vec3).z = 0 := rfl

@[simp] theorem add_x (a b : Vec3) : (a + b).x = a.x + b.x := rfl

@[simp] theorem add_y (a b : Vec3) : (a + b).y = a.y + b.y := rfl

@[simp] theorem add_z (a b : Vec3) : (a + b).z = a.z + b.z := rfl

@[simp] theorem sub_x (a b : Vec3) : (a - b).x = a.x - b.x := rfl

@[simp] theorem sub_y (a b : Vec3) : (a - b).y = a.y - b.y := rfl

@[simp] theorem sub_z (a b : Vec3) : (a - b).z = a.z - b.z := rfl

@[simp] theorem mulr_x (v : Vec3) (t : ℝ) : (v * t).x = v.x * t := rfl

@[simp] theorem mulr_y (v : Vec3) (t : ℝ) : (v * t).y = v.y * t := rfl

@[simp] theorem mulr_z (v : Vec3) (t : ℝ) : (v * t).z = v.z * t := rfl

@[simp] theorem mull_x (t : ℝ) (v : Vec3) : (t * v).x = t * v.x := rfl

@[simp] theorem mull_y (t : ℝ) (v : Vec3) : (t * v).y = t * v.y := rfl

@[simp] theorem mull_z (t : ℝ) (v : Vec3) : (t * v).z = t * v.z := rfl

@[simp] theorem div_x (v : Vec3) (t : ℝ) : (v / t).x = v.x / t := rfl

@[simp] theorem div_y (v : Vec3) (t : ℝ) : (v / t).y = v.y / t := rfl

@[simp] theorem div_z (v : Vec3) (t : ℝ) : (v / t).z = v.z / t := rfl

instance : AddCommMonoid Vec3 where
  add_assoc a b c := by ext <;> simp <;> ring
  zero_add a := by ext <;> simp
  add_zero a := by ext <;> simp
  add_comm a b := by ext <;> simp <;> ring
  nsmul := nsmulRec

/-- glm::dot. -/
def dot (a b : Vec3) : ℝ := a.x * b.x + a.y * b.y + a.z * b.z

/-- glm::cross. -/
def cross (a b : Vec3) : Vec3 :=
  ⟨a.y * b.z - a.z * b.y, a.z * b.x - a.x * b.z, a.x * b.y - a.y * b.x⟩

/-- glm::length. -/
noncomputable def length (v : Vec3) : ℝ := Real.sqrt (dot v v)

/-- glm::distance. -/
noncomputable def distance (a b : Vec3) : ℝ := length (b - a)

/-- glm::normalize. -/
noncomputable def normalize (v : Vec3) : Vec3 := v / length v

theorem dot_nonneg (v : Vec3) : 0 ≤ dot v v := by
  simp only [dot]
  nlinarith [mul_self_nonneg v.x, mul_self_nonneg v.y, mul_self_nonneg v.z]

theorem length_nonneg (v : Vec3) : 0 ≤ length v := Real.sqrt_nonneg _

theorem length_mul_self (v : Vec3) : length v * length v = dot v v :=
  Real.mul_self_sqrt (dot_nonneg v)

theorem length_pos_of_ne (v : Vec3) (h : v.x ≠ 0 ∨ v.y ≠ 0 ∨ v.z ≠ 0) :
    0 < length v := by
  apply Real.sqrt_pos.mpr
  simp only [dot]
  rcases h with h | h | h
  · nlinarith [mul_self_nonneg v.y, mul_self_nonneg v.z, mul_self_pos.mpr h]
  · nlinarith [mul_self_nonneg v.x, mul_self_nonneg v.z, mul_self_pos.mpr h]
  · nlinarith [mul_self_nonneg v.x, mul_self_nonneg v.y, mul_self_pos.mpr h]

end Vec3

/-! ### Configuration constants (`kernel.cu` lines 30-40, `kernel.h`) -/

/-- Block size used for CUDA kernel launch (`#define blockSize 128`). -/
def blockSize : ℕ := 128

/-- Mass of one "planet" (`#define planetMass 3e8f`). -/
noncomputable def planetMass : ℝ := 3e8

/-- Mass of the "star" at the center (`#define starMass 5e10f`). -/
noncomputable def starMass : ℝ := 5e10

/-- Size of the starting area in simulation space (`const float scene_scale = 1e2`). -/
noncomputable def scene_scale : ℝ := 1e2

/-- Modelled from the spec: the gravitational constant `G` is defined in
`kernel.h`, which is not among the provided sources; the spec fixes it as one
of the "two fixed physical constants" of the simulation. We use the standard
value `6.67384e-11`. -/
noncomputable def G : ℝ := 6.67384e-11

/-- Modelled from the spec: `EPSILON` is defined in `kernel.h`, which is not
among the provided sources; the spec describes it as the small positive
constant "added to avoid division blow-up near the origin". We use `1e-5`. -/
noncomputable def EPSILON : ℝ := 1e-5

theorem G_pos : 0 < G := by norm_num [G]

theorem EPSILON_pos : 0 < EPSILON := by norm_num [EPSILON]

/-! ### initSimulation (`kernel.cu` lines 59-132) -/

/-- Reduction of `unsigned int` arithmetic modulo `2^32`. -/
def u32 (a : ℕ) : ℕ := a % 4294967296

/-- `hash` (`kernel.cu` lines 59-67): each C statement becomes one rebinding,
with every addition, shift and xor reduced modulo `2^32`
(`<< k` is `* 2^k`, `>> k` is `/ 2^k`). -/
def hash (a : ℕ) : ℕ :=
  let a1 := u32 (u32 (a + 0x7ed55d16) + u32 (a * 4096))
  let a2 := u32 (u32 (a1 ^^^ 0xc761c23c) ^^^ u32 (a1 / 524288))
  let a3 := u32 (u32 (a2 + 0x165667b1) + u32 (a2 * 32))
  let a4 := u32 (u32 (a3 + 0xd3a2646c) ^^^ u32 (a3 * 512))
  let a5 := u32 (u32 (a4 + 0xfd7046c5) + u32 (a4 * 8))
  u32 (u32 (a5 ^^^ 0xb55a4f09) ^^^ u32 (a5 / 65536))

/-- `generateRandomVec3` (`kernel.cu` lines 72-77): seeds a
`thrust::default_random_engine` with `hash((int)(index * time))` and draws
three uniform values from `[-1, 1]`.  The thrust engine and distribution are
external library code, modelled by the parameter `draw`: `draw seed k` is the
`k`-th value the seeded engine produces. The callers pass small nonnegative
integer `time` tags, so `(int)(index * time)` is `index * time` over `ℕ`. -/
def generateRandomVec3 (draw : ℕ → ℕ → ℝ) (time : ℕ) (index : ℕ) : Vec3 :=
  let seed := hash (index * time)
  ⟨draw seed 0, draw seed 1, draw seed 2⟩

/-- Per-thread body of `kernGenerateRandomPosArray` (`kernel.cu` lines 82-90):
the value written to `arr[index]` for `index < N`. -/
noncomputable def kernGenerateRandomPosArrayBody (draw : ℕ → ℕ → ℝ) (time : ℕ)
    (scale : ℝ) (index : ℕ) : Vec3 :=
  let rand := generateRandomVec3 draw time index
  ⟨scale * rand.x, scale * rand.y,
   0.1 * scale * Real.sqrt (rand.x * rand.x + rand.y * rand.y) * rand.z⟩

/-- Per-thread body of `kernGenerateCircularVelArray` (`kernel.cu` lines
96-107): the value written to `arr[index]` for `index < N`, where `p` is
`pos[index]`. -/
noncomputable def kernGenerateCircularVelArrayBody (p : Vec3) : Vec3 :=
  let R : Vec3 := ⟨p.x, p.y, p.z⟩
  let r := Vec3.length R + EPSILON
  let s := Real.sqrt (G * starMass / r)
  let D := Vec3.normalize (Vec3.cross (R / r) ⟨0, 0, 1⟩)
  ⟨s * D.x, s * D.y, s * D.z⟩

/-- Execution of a one-write-per-thread kernel launch: every thread index in
the schedule `order` with `i < N` overwrites cell `i` of the array with `f i`
(`f` reads only launch-constant data, never the written array, so any
schedule — any interleaving of the parallel threads — is a valid execution). -/
def writeKernel (N : ℕ) (f : ℕ → Vec3) (order : List ℕ) (arr : ℕ → Vec3) :
    ℕ → Vec3 :=
  order.foldl (fun a i => if i < N then Function.update a i (f i) else a) arr

/-- `kernGenerateRandomPosArray` (`kernel.cu` lines 82-90) as an array
transformer, over an arbitrary thread schedule.  The `mass` parameter is
accepted (as in the CUDA signature) and unused, exactly as in the source. -/
noncomputable def kernGenerateRandomPosArray (draw : ℕ → ℕ → ℝ) (time N : ℕ)
    (arr : ℕ → Vec3) (scale mass : ℝ) (order : List ℕ) : ℕ → Vec3 :=
  writeKernel N (kernGenerateRandomPosArrayBody draw time scale) order arr

/-- `kernGenerateCircularVelArray` (`kernel.cu` lines 96-107) as an array
transformer, over an arbitrary thread schedule; `pos` is the (fully written)
position array the kernel reads. -/
noncomputable def kernGenerateCircularVelArray (time N : ℕ) (arr : ℕ → Vec3)
    (pos : ℕ → Vec3) (order : List ℕ) : ℕ → Vec3 :=
  writeKernel N (fun i => kernGenerateCircularVelArrayBody (pos i)) order arr

/-- The initialization performed by `Nbody::initSimulation` (`kernel.cu` lines
112-132) on the freshly allocated arrays, generalized over the integer seed
tags (the source passes `1` and `2`): generate positions with seed tag
`tPos`, then velocities with seed tag `tVel` reading the generated positions.
`p0`/`v0` are the (arbitrary) contents of the freshly `cudaMalloc`ed arrays,
`oPos`/`oVel` the thread schedules of the two kernel launches. -/
noncomputable def initArrays (draw : ℕ → ℕ → ℝ) (tPos tVel N : ℕ) (scale mass : ℝ)
    (oPos oVel : List ℕ) (p0 v0 : ℕ → Vec3) : (ℕ → Vec3) × (ℕ → Vec3) :=
  let pos := kernGenerateRandomPosArray draw tPos N p0 scale mass oPos
  let vel := kernGenerateCircularVelArray tVel N v0 pos oVel
  (pos, vel)

/-- `Nbody::initSimulation` (`kernel.cu` lines 112-132): seed tags `1` and
`2`, scale `scene_scale`, mass `planetMass`, as wired in the source. -/
noncomputable def initSimulation (draw : ℕ → ℕ → ℝ) (N : ℕ) (oPos oVel : List ℕ)
    (p0 v0 : ℕ → Vec3) : (ℕ → Vec3) × (ℕ → Vec3) :=
  initArrays draw 1 2 N scene_scale planetMass oPos oVel p0 v0

/-! ### stepSimulation (`kernel.cu` lines 172-233) -/

/-- `accelOne` (`kernel.cu` lines 172-183): the guarded two-body
contribution `1 * (G * mass / r²) * normalize(other - planet)`, zero when
`r² ≤ 0.1`. -/
noncomputable def accelOne (planet other : Vec3) (mass : ℝ) : Vec3 :=
  let num := G * mass
  let r := Vec3.distance planet other
  let denom := r * r
  if denom > 0.1 then (1 : ℝ) * (num / denom) * Vec3.normalize (other - planet)
  else (⟨0, 0, 0⟩ : Vec3)

/-- `accelerate` (`kernel.cu` lines 188-195): central-mass contribution plus a
loop over all `N` bodies (including `iSelf`). -/
noncomputable def accelerate (N : ℕ) (iSelf : ℕ) (pos : ℕ → Vec3) : Vec3 :=
  let planet := pos iSelf
  (List.range N).foldl
    (fun totalAccel i => totalAccel + accelOne planet (pos i) planetMass)
    (accelOne planet (⟨0, 0, 0⟩ : Vec3) starMass)

/-- `kernUpdateAcc` (`kernel.cu` lines 201-207): thread `i < N` writes
`accelerate N i pos` into `acc[i]`; the `dt` parameter is part of the CUDA
signature. -/
noncomputable def kernUpdateAcc (N : ℕ) (dt : ℝ) (pos : ℕ → Vec3)
    (acc : ℕ → Vec3) : ℕ → Vec3 :=
  fun i => if i < N then accelerate N i pos else acc i

/-- Per-thread body of `kernUpdateVelPos` (`kernel.cu` lines 213-219):
`vel[i] += acc[i] * dt; pos[i] += vel[i] * dt;` — the position update reads
the just-updated velocity.  Returns the new `(pos_i, vel_i)`. -/
noncomputable def kernUpdateVelPosBody (dt : ℝ) (p v a : Vec3) : Vec3 × Vec3 :=
  let v1 := v + a * dt
  let p1 := p + v1 * dt
  (p1, v1)

/-- `kernUpdateVelPos` (`kernel.cu` lines 213-219) as array transformers:
each thread `i < N` updates exactly cells `vel[i]` and `pos[i]` from cells of
index `i` only. -/
noncomputable def kernUpdateVelPos (N : ℕ) (dt : ℝ) (pos vel acc : ℕ → Vec3) :
    (ℕ → Vec3) × (ℕ → Vec3) :=
  (fun i => if i < N then (kernUpdateVelPosBody dt (pos i) (vel i) (acc i)).1 else pos i,
   fun i => if i < N then (kernUpdateVelPosBody dt (pos i) (vel i) (acc i)).2 else vel i)

/-- The engine state: body count and the three device arrays
(`kernel.cu` lines 47-52). -/
structure NbodyState where
  numObjects : ℕ
  pos : ℕ → Vec3
  vel : ℕ → Vec3
  acc : ℕ → Vec3

/-- `Nbody::stepSimulation` (`kernel.cu` lines 224-233): run `kernUpdateAcc`,
then `kernUpdateVelPos` on the updated accelerations. -/
noncomputable def stepSimulation (dt : ℝ) (st : NbodyState) : NbodyState :=
  let acc1 := kernUpdateAcc st.numObjects dt st.pos st.acc
  let pv := kernUpdateVelPos st.numObjects dt st.pos st.vel acc1
  ⟨st.numObjects, pv.1, pv.2, acc1⟩

/-! ### copyPlanetsToVBO (`kernel.cu` lines 142-165) -/

/-- `kernCopyPlanetsToVBO` (`kernel.cu` lines 142-153): thread `index < N`
writes the four cells `4*index .. 4*index+3` of the float buffer; cell `k`
belongs to thread `k / 4` and holds component `k % 4`.  Cells of threads
`≥ N` are untouched. -/
noncomputable def kernCopyPlanetsToVBO (N : ℕ) (pos : ℕ → Vec3) (vbo : ℕ → ℝ)
    (s_scale : ℝ) : ℕ → ℝ :=
  fun k =>
    let c_scale := -1 / s_scale
    let index := k / 4
    if index < N then
      if k % 4 = 0 then (pos index).x * c_scale
      else if k % 4 = 1 then (pos index).y * c_scale
      else if k % 4 = 2 then (pos index).z * c_scale
      else 1
    else vbo k

/-- `Nbody::copyPlanetsToVBO` (`kernel.cu` lines 158-165): launches the copy
kernel with the engine's body count, position array and `scene_scale`; the
engine state itself is returned unchanged alongside the filled buffer. -/
noncomputable def copyPlanetsToVBO (st : NbodyState) (vbodptr : ℕ → ℝ) :
    NbodyState × (ℕ → ℝ) :=
  (st, kernCopyPlanetsToVBO st.numObjects st.pos vbodptr scene_scale)

/-! ### Helper lemmas -/

theorem foldl_add_eq_sum (g : ℕ → Vec3) (c : Vec3) (n : ℕ) :
    (List.range n).foldl (fun acc i => acc + g i) c = c + ∑ i ∈ Finset.range n, g i := by
  induction n with
  | zero => simp
  | succ m ih =>
    rw [List.range_succ, List.foldl_append, ih, Finset.sum_range_succ, List.foldl_cons,
      List.foldl_nil, add_assoc]

theorem Vec3.sub_self_eq (p : Vec3) : p - p = (⟨0, 0, 0⟩ : Vec3) := by
  ext <;> simp

theorem Vec3.distance_mul_self (planet other : Vec3) :
    Vec3.distance planet other * Vec3.distance planet other =
      Vec3.dot (other - planet) (other - planet) :=
  Vec3.length_mul_self _

theorem accelOne_of_quad_le (planet other : Vec3) (mass : ℝ)
    (h : Vec3.dot (other - planet) (other - planet) ≤ 0.1) :
    accelOne planet other mass = (⟨0, 0, 0⟩ : Vec3) := by
  unfold accelOne
  rw [if_neg]
  rw [Vec3.distance_mul_self]
  exact not_lt.mpr h

theorem accelOne_self_eq (p : Vec3) (m : ℝ) : accelOne p p m = (⟨0, 0, 0⟩ : Vec3) := by
  apply accelOne_of_quad_le
  rw [Vec3.sub_self_eq]
  norm_num [Vec3.dot]

theorem accelerate_eq (N iSelf : ℕ) (pos : ℕ → Vec3) :
    accelerate N iSelf pos =
      accelOne (pos iSelf) (⟨0, 0, 0⟩ : Vec3) starMass +
        ∑ i ∈ Finset.range N, accelOne (pos iSelf) (pos i) planetMass := by
  unfold accelerate
  exact foldl_add_eq_sum _ _ _

theorem Vec3.mk_zero_eq : (⟨0, 0, 0⟩ : Vec3) = 0 := rfl

/-! ### Claim theorems -/

/-- C1: the force evaluator's total acceleration is the central-mass
contribution at the origin plus the sum of the guarded pairwise contributions
over every body `j ∈ [0, N)` including `j = iSelf`; the self term contributes
zero, so for `N = 1` the result is exactly the central-mass-only
contribution. -/
theorem accelerate_central_add_sum :
    (∀ (N iSelf : ℕ) (pos : ℕ → Vec3),
      accelerate N iSelf pos =
        accelOne (pos iSelf) (⟨0, 0, 0⟩ : Vec3) starMass +
          ∑ i ∈ Finset.range N, accelOne (pos iSelf) (pos i) planetMass) ∧
    (∀ (p : Vec3) (m : ℝ), accelOne p p m = (⟨0, 0, 0⟩ : Vec3)) ∧
    (∀ pos : ℕ → Vec3,
      accelerate 1 0 pos = accelOne (pos 0) (⟨0, 0, 0⟩ : Vec3) starMass) := by
  refine ⟨accelerate_eq, accelOne_self_eq, fun pos => ?_⟩
  rw [accelerate_eq, Finset.sum_range_one, accelOne_self_eq, Vec3.mk_zero_eq, add_zero]

/-- C2: one integration step first sets `vel' = vel + acc * dt`, then
`pos' = pos + vel' * dt` using the already-updated velocity; in particular
for `dt > 0` and a nonzero constant acceleration the post-step position
differs from the pre-step-velocity update `pos + vel * dt`. -/
theorem kernUpdateVelPos_semi_implicit :
    (∀ (dt : ℝ) (p v a : Vec3),
      kernUpdateVelPosBody dt p v a = (p + (v + a * dt) * dt, v + a * dt)) ∧
    (∀ (dt : ℝ) (p v a : Vec3), 0 < dt → a ≠ 0 →
      (kernUpdateVelPosBody dt p v a).1 ≠ p + v * dt) := by
  constructor
  · intro dt p v a
    rfl
  · intro dt p v a hdt ha heq
    apply ha
    have hx := congrArg Vec3.x heq
    have hy := congrArg Vec3.y heq
    have hz := congrArg Vec3.z heq
    simp only [kernUpdateVelPosBody, Vec3.add_x, Vec3.add_y, Vec3.add_z,
      Vec3.mulr_x, Vec3.mulr_y, Vec3.mulr_z] at hx hy hz
    have hdt2 : dt * dt ≠ 0 := ne_of_gt (mul_pos hdt hdt)
    ext
    · simp only [Vec3.zero_x]
      have h1 : a.x * (dt * dt) = 0 := by linear_combination hx
      rcases mul_eq_zero.mp h1 with h | h
      · exact h
      · exact absurd h hdt2
    · simp only [Vec3.zero_y]
      have h1 : a.y * (dt * dt) = 0 := by linear_combination hy
      rcases mul_eq_zero.mp h1 with h | h
      · exact h
      · exact absurd h hdt2
    · simp only [Vec3.zero_z]
      have h1 : a.z * (dt * dt) = 0 := by linear_combination hz
      rcases mul_eq_zero.mp h1 with h | h
      · exact h
      · exact absurd h hdt2

/-- Witness for C2 at `dt = 1`, `p = v = 0`, `a = (1, 0, 0)`. -/
theorem kernUpdateVelPos_semi_implicit_witness :
    (kernUpdateVelPosBody 1 0 0 (⟨1, 0, 0⟩ : Vec3)).1 ≠ 0 + (0 : Vec3) * (1 : ℝ) :=
  kernUpdateVelPos_semi_implicit.2 1 0 0 ⟨1, 0, 0⟩ (by norm_num)
    (fun hc => by simpa using congrArg Vec3.x hc)

/-- C4: whenever the squared separation is at most the fixed threshold `0.1`
(in particular for coincident bodies and for a body against itself) the
pairwise contribution is exactly the zero vector, and whenever the guard
passes the normalized direction is taken of a vector of strictly positive
length (so no division by a zero length occurs). -/
theorem accelOne_guard_zero :
    ∀ (planet other : Vec3) (mass : ℝ),
      (Vec3.dot (other - planet) (other - planet) ≤ 0.1 →
        accelOne planet other mass = (⟨0, 0, 0⟩ : Vec3)) ∧
      (0.1 < Vec3.dot (other - planet) (other - planet) →
        0 < Vec3.length (other - planet)) := by
  intro planet other mass
  refine ⟨accelOne_of_quad_le planet other mass, fun h => ?_⟩
  apply Real.sqrt_pos.mpr
  linarith

/-- Witness for C4 at two coincident bodies at the origin. -/
theorem accelOne_guard_zero_witness :
    accelOne (⟨0, 0, 0⟩ : Vec3) (⟨0, 0, 0⟩ : Vec3) 1 = (⟨0, 0, 0⟩ : Vec3) :=
  (accelOne_guard_zero ⟨0, 0, 0⟩ ⟨0, 0, 0⟩ 1).1
    (by rw [Vec3.sub_self_eq]; norm_num [Vec3.dot])

/-- C8: the central-mass term goes through the same guarded `accelOne`, so a
body whose squared distance from the origin is at most `0.1` receives a zero
central-mass contribution, and its total acceleration reduces to the pairwise
sum alone. -/
theorem central_guard_near_origin :
    ∀ (N iSelf : ℕ) (pos : ℕ → Vec3),
      Vec3.dot (pos iSelf) (pos iSelf) ≤ 0.1 →
      accelOne (pos iSelf) (⟨0, 0, 0⟩ : Vec3) starMass = (⟨0, 0, 0⟩ : Vec3) ∧
      accelerate N iSelf pos =
        ∑ i ∈ Finset.range N, accelOne (pos iSelf) (pos i) planetMass := by
  intro N iSelf pos h
  have hq : Vec3.dot ((⟨0, 0, 0⟩ : Vec3) - pos iSelf) ((⟨0, 0, 0⟩ : Vec3) - pos iSelf) =
      Vec3.dot (pos iSelf) (pos iSelf) := by
    simp only [Vec3.dot, Vec3.sub_x, Vec3.sub_y, Vec3.sub_z]
    ring
  have hc : accelOne (pos iSelf) (⟨0, 0, 0⟩ : Vec3) starMass = (⟨0, 0, 0⟩ : Vec3) :=
    accelOne_of_quad_le _ _ _ (by rw [hq]; exact h)
  refine ⟨hc, ?_⟩
  rw [accelerate_eq, hc, Vec3.mk_zero_eq, zero_add]

/-- Witness for C8 with a single body sitting at the origin. -/
theorem central_guard_near_origin_witness :
    accelOne ((fun _ : ℕ => (⟨0, 0, 0⟩ : Vec3)) 0) (⟨0, 0, 0⟩ : Vec3) starMass =
        (⟨0, 0, 0⟩ : Vec3) ∧
      accelerate 1 0 (fun _ : ℕ => (⟨0, 0, 0⟩ : Vec3)) =
        ∑ i ∈ Finset.range 1,
          accelOne ((fun _ : ℕ => (⟨0, 0, 0⟩ : Vec3)) 0)
            ((fun _ : ℕ => (⟨0, 0, 0⟩ : Vec3)) i) planetMass :=
  central_guard_near_origin 1 0 (fun _ => ⟨0, 0, 0⟩) (by norm_num [Vec3.dot])

/-- C9: the generator is seeded with `hash(index * time)`, which is
`hash 0` whenever `index = 0`, so body 0 receives the same pseudo-random
vector — and hence the same generated position — for any two values of the
integer seed tag. -/
theorem body0_seed_independent :
    ∀ (draw : ℕ → ℕ → ℝ) (t1 t2 : ℕ) (scale : ℝ),
      generateRandomVec3 draw t1 0 = generateRandomVec3 draw t2 0 ∧
      kernGenerateRandomPosArrayBody draw t1 scale 0 =
        kernGenerateRandomPosArrayBody draw t2 scale 0 := by
  intro draw t1 t2 scale
  constructor
  · simp [generateRandomVec3, Nat.zero_mul]
  · simp [kernGenerateRandomPosArrayBody, generateRandomVec3, Nat.zero_mul]

/-- C10: the acceleration pass of a simulation step ignores the `dt`
parameter: for any state, the acceleration array written by
`kernUpdateAcc` — and hence the `acc` field after `stepSimulation` — is
identical for any two time steps, depending only on `N` and the current
positions. -/
theorem kernUpdateAcc_dt_irrelevant :
    ∀ (st : NbodyState) (dt1 dt2 : ℝ),
      (stepSimulation dt1 st).acc = (stepSimulation dt2 st).acc ∧
      ∀ (N : ℕ) (pos acc : ℕ → Vec3),
        kernUpdateAcc N dt1 pos acc = kernUpdateAcc N dt2 pos acc := by
  intro st dt1 dt2
  exact ⟨rfl, fun N pos acc => rfl⟩

theorem writeKernel_apply (N : ℕ) (f : ℕ → Vec3) (o : List ℕ) :
    ∀ (arr : ℕ → Vec3) (j : ℕ),
      writeKernel N f o arr j = if j ∈ o ∧ j < N then f j else arr j := by
  induction o with
  | nil => intro arr j; simp [writeKernel]
  | cons i rest ih =>
    intro arr j
    rw [show writeKernel N f (i :: rest) arr =
        writeKernel N f rest (if i < N then Function.update arr i (f i) else arr) from rfl]
    rw [ih]
    by_cases hjr : j ∈ rest ∧ j < N
    · simp [hjr.1, hjr.2, List.mem_cons]
    · rw [if_neg hjr]
      by_cases hji : j = i
      · subst hji
        by_cases hjN : j < N
        · simp [hjN, List.mem_cons]
        · have : ¬ (j ∈ j :: rest ∧ j < N) := fun hc => hjN hc.2
          rw [if_neg this, if_neg hjN]
      · have harr : (if i < N then Function.update arr i (f i) else arr) j = arr j := by
          split_ifs
          · rw [Function.update_apply, if_neg hji]
          · rfl
        rw [harr, if_neg]
        intro hc
        rcases List.mem_cons.mp hc.1 with h | h
        · exact hji h
        · exact hjr ⟨h, hc.2⟩

/-- C3: with the same `(N, seed tags, scale, mass)` inputs, two executions of
the scene initialization — with arbitrary (complete) thread schedules and
arbitrary initial array garbage — produce identical position and velocity
values for every body, and each body's values are a pure function of its
index and the seed tags alone. -/
theorem initArrays_deterministic :
    ∀ (draw : ℕ → ℕ → ℝ) (tPos tVel N : ℕ) (scale mass : ℝ)
      (oP1 oV1 oP2 oV2 : List ℕ) (p01 v01 p02 v02 : ℕ → Vec3),
      (∀ i, i < N → i ∈ oP1) → (∀ i, i < N → i ∈ oV1) →
      (∀ i, i < N → i ∈ oP2) → (∀ i, i < N → i ∈ oV2) →
      ∀ j, j < N →
        (initArrays draw tPos tVel N scale mass oP1 oV1 p01 v01).1 j =
          (initArrays draw tPos tVel N scale mass oP2 oV2 p02 v02).1 j ∧
        (initArrays draw tPos tVel N scale mass oP1 oV1 p01 v01).2 j =
          (initArrays draw tPos tVel N scale mass oP2 oV2 p02 v02).2 j ∧
        (initArrays draw tPos tVel N scale mass oP1 oV1 p01 v01).1 j =
          kernGenerateRandomPosArrayBody draw tPos scale j ∧
        (initArrays draw tPos tVel N scale mass oP1 oV1 p01 v01).2 j =
          kernGenerateCircularVelArrayBody
            (kernGenerateRandomPosArrayBody draw tPos scale j) := by
  intro draw tPos tVel N scale mass oP1 oV1 oP2 oV2 p01 v01 p02 v02 hP1 hV1 hP2 hV2 j hj
  have pos1 : ∀ k, k < N →
      (initArrays draw tPos tVel N scale mass oP1 oV1 p01 v01).1 k =
        kernGenerateRandomPosArrayBody draw tPos scale k := by
    intro k hk
    simp only [initArrays, kernGenerateRandomPosArray]
    rw [writeKernel_apply, if_pos ⟨hP1 k hk, hk⟩]
  have pos2 : ∀ k, k < N →
      (initArrays draw tPos tVel N scale mass oP2 oV2 p02 v02).1 k =
        kernGenerateRandomPosArrayBody draw tPos scale k := by
    intro k hk
    simp only [initArrays, kernGenerateRandomPosArray]
    rw [writeKernel_apply, if_pos ⟨hP2 k hk, hk⟩]
  have vel1 : (initArrays draw tPos tVel N scale mass oP1 oV1 p01 v01).2 j =
      kernGenerateCircularVelArrayBody (kernGenerateRandomPosArrayBody draw tPos scale j) := by
    simp only [initArrays, kernGenerateCircularVelArray]
    rw [writeKernel_apply, if_pos ⟨hV1 j hj, hj⟩]
    rw [show (kernGenerateRandomPosArray draw tPos N p01 scale mass oP1) j =
        (initArrays draw tPos tVel N scale mass oP1 oV1 p01 v01).1 j from rfl, pos1 j hj]
  have vel2 : (initArrays draw tPos tVel N scale mass oP2 oV2 p02 v02).2 j =
      kernGenerateCircularVelArrayBody (kernGenerateRandomPosArrayBody draw tPos scale j) := by
    simp only [initArrays, kernGenerateCircularVelArray]
    rw [writeKernel_apply, if_pos ⟨hV2 j hj, hj⟩]
    rw [show (kernGenerateRandomPosArray draw tPos N p02 scale mass oP2) j =
        (initArrays draw tPos tVel N scale mass oP2 oV2 p02 v02).1 j from rfl, pos2 j hj]
  exact ⟨(pos1 j hj).trans (pos2 j hj).symm, vel1.trans vel2.symm, pos1 j hj, vel1⟩

/-- Witness for C3: one body, schedules `[0]` versus `[0, 0]`, different
initial garbage. -/
theorem initArrays_deterministic_witness :
    (initArrays (fun _ _ => 0) 1 2 1 1 1 [0] [0] (fun _ => 0) (fun _ => 0)).1 0 =
      (initArrays (fun _ _ => 0) 1 2 1 1 1 [0, 0] [0, 0]
        (fun _ => ⟨5, 5, 5⟩) (fun _ => ⟨7, 7, 7⟩)).1 0 ∧
    (initArrays (fun _ _ => 0) 1 2 1 1 1 [0] [0] (fun _ => 0) (fun _ => 0)).2 0 =
      (initArrays (fun _ _ => 0) 1 2 1 1 1 [0, 0] [0, 0]
        (fun _ => ⟨5, 5, 5⟩) (fun _ => ⟨7, 7, 7⟩)).2 0 ∧
    (initArrays (fun _ _ => 0) 1 2 1 1 1 [0] [0] (fun _ => 0) (fun _ => 0)).1 0 =
      kernGenerateRandomPosArrayBody (fun _ _ => 0) 1 1 0 ∧
    (initArrays (fun _ _ => 0) 1 2 1 1 1 [0] [0] (fun _ => 0) (fun _ => 0)).2 0 =
      kernGenerateCircularVelArrayBody (kernGenerateRandomPosArrayBody (fun _ _ => 0) 1 1 0) := by
  have horder : ∀ i, i < 1 → i ∈ ([0] : List ℕ) := by
    intro i hi
    interval_cases i
    simp
  have horder2 : ∀ i, i < 1 → i ∈ ([0, 0] : List ℕ) := by
    intro i hi
    interval_cases i
    simp
  exact initArrays_deterministic (fun _ _ => 0) 1 2 1 1 1 [0] [0] [0, 0] [0, 0]
    (fun _ => 0) (fun _ => 0) (fun _ => ⟨5, 5, 5⟩) (fun _ => ⟨7, 7, 7⟩)
    horder horder horder2 horder2 0 (by norm_num)

/-- C7: the position-export writes exactly the four floats
`(x, y, z components times -1/scene_scale, then 1)` into cells
`4*i .. 4*i+3` for every body `i < N`, leaves cells of indices beyond the
`N` bodies untouched, and does not mutate any engine state. -/
theorem copyPlanetsToVBO_spec :
    ∀ (st : NbodyState) (vbo : ℕ → ℝ) (i : ℕ), i < st.numObjects →
      ((copyPlanetsToVBO st vbo).2 (4 * i) = (st.pos i).x * (-1 / scene_scale) ∧
       (copyPlanetsToVBO st vbo).2 (4 * i + 1) = (st.pos i).y * (-1 / scene_scale) ∧
       (copyPlanetsToVBO st vbo).2 (4 * i + 2) = (st.pos i).z * (-1 / scene_scale) ∧
       (copyPlanetsToVBO st vbo).2 (4 * i + 3) = 1) ∧
      (∀ k, st.numObjects ≤ k / 4 → (copyPlanetsToVBO st vbo).2 k = vbo k) ∧
      (copyPlanetsToVBO st vbo).1 = st := by
  intro st vbo i hi
  have h0d : 4 * i / 4 = i := by omega
  have h0m : 4 * i % 4 = 0 := by omega
  have h1d : (4 * i + 1) / 4 = i := by omega
  have h1m : (4 * i + 1) % 4 = 1 := by omega
  have h2d : (4 * i + 2) / 4 = i := by omega
  have h2m : (4 * i + 2) % 4 = 2 := by omega
  have h3d : (4 * i + 3) / 4 = i := by omega
  have h3m : (4 * i + 3) % 4 = 3 := by omega
  refine ⟨⟨?_, ?_, ?_, ?_⟩, ?_, rfl⟩
  · simp only [copyPlanetsToVBO, kernCopyPlanetsToVBO, h0d, h0m, if_pos hi]
    norm_num
  · simp only [copyPlanetsToVBO, kernCopyPlanetsToVBO, h1d, h1m, if_pos hi]
    norm_num
  · simp only [copyPlanetsToVBO, kernCopyPlanetsToVBO, h2d, h2m, if_pos hi]
    norm_num
  · simp only [copyPlanetsToVBO, kernCopyPlanetsToVBO, h3d, h3m, if_pos hi]
    norm_num
  · intro k hk
    simp only [copyPlanetsToVBO, kernCopyPlanetsToVBO]
    rw [if_neg (not_lt.mpr hk)]

/-- Witness for C7 with a one-body engine at position `(2, 3, 4)`. -/
theorem copyPlanetsToVBO_spec_witness :
    ((copyPlanetsToVBO ⟨1, fun _ => ⟨2, 3, 4⟩, fun _ => 0, fun _ => 0⟩ (fun _ => 0)).2 (4 * 0) =
        ((NbodyState.mk 1 (fun _ => ⟨2, 3, 4⟩) (fun _ => 0) (fun _ => 0)).pos 0).x *
          (-1 / scene_scale) ∧
      (copyPlanetsToVBO ⟨1, fun _ => ⟨2, 3, 4⟩, fun _ => 0, fun _ => 0⟩ (fun _ => 0)).2 (4 * 0 + 1) =
        ((NbodyState.mk 1 (fun _ => ⟨2, 3, 4⟩) (fun _ => 0) (fun _ => 0)).pos 0).y *
          (-1 / scene_scale) ∧
      (copyPlanetsToVBO ⟨1, fun _ => ⟨2, 3, 4⟩, fun _ => 0, fun _ => 0⟩ (fun _ => 0)).2 (4 * 0 + 2) =
        ((NbodyState.mk 1 (fun _ => ⟨2, 3, 4⟩) (fun _ => 0) (fun _ => 0)).pos 0).z *
          (-1 / scene_scale) ∧
      (copyPlanetsToVBO ⟨1, fun _ => ⟨2, 3, 4⟩, fun _ => 0, fun _ => 0⟩ (fun _ => 0)).2 (4 * 0 + 3) =
        1) ∧
    (copyPlanetsToVBO ⟨1, fun _ => ⟨2, 3, 4⟩, fun _ => 0, fun _ => 0⟩ (fun _ => 0)).1 =
      ⟨1, fun _ => ⟨2, 3, 4⟩, fun _ => 0, fun _ => 0⟩ :=
  ⟨(copyPlanetsToVBO_spec ⟨1, fun _ => ⟨2, 3, 4⟩, fun _ => 0, fun _ => 0⟩ (fun _ => 0) 0
      (by norm_num)).1,
   (copyPlanetsToVBO_spec ⟨1, fun _ => ⟨2, 3, 4⟩, fun _ => 0, fun _ => 0⟩ (fun _ => 0) 0
      (by norm_num)).2.2⟩

/-! ### Geometry helpers for the initializer claims -/

theorem Vec3.length_div_scalar (v : Vec3) (t : ℝ) (ht : 0 < t) :
    Vec3.length (v / t) = Vec3.length v / t := by
  unfold Vec3.length
  have h1 : Vec3.dot (v / t) (v / t) = Vec3.dot v v / (t * t) := by
    simp only [Vec3.dot, Vec3.div_x, Vec3.div_y, Vec3.div_z]
    field_simp
  rw [h1, Real.sqrt_div (Vec3.dot_nonneg v), Real.sqrt_mul_self ht.le]

theorem Vec3.length_scalar_mul (t : ℝ) (v : Vec3) (ht : 0 ≤ t) :
    Vec3.length ⟨t * v.x, t * v.y, t * v.z⟩ = t * Vec3.length v := by
  unfold Vec3.length
  have h1 : Vec3.dot (⟨t * v.x, t * v.y, t * v.z⟩ : Vec3) ⟨t * v.x, t * v.y, t * v.z⟩ =
      t * t * Vec3.dot v v := by
    simp only [Vec3.dot]
    ring
  rw [h1, Real.sqrt_mul (mul_self_nonneg t), Real.sqrt_mul_self ht]

theorem cross_unit_z (a : Vec3) : Vec3.cross a ⟨0, 0, 1⟩ = ⟨a.y, -a.x, 0⟩ := by
  unfold Vec3.cross
  ext
  · show a.y * 1 - a.z * 0 = a.y
    ring
  · show a.z * 0 - a.x * 1 = -a.x
    ring
  · show a.x * 0 - a.y * 0 = 0
    ring

/-- The velocity generated for a body at `p` (off the vertical axis) has
magnitude `sqrt(G * starMass / (|p| + EPSILON))`, where `|p|` is the full
3-D length of the position — not its planar distance from the origin. -/
theorem velBody_length (p : Vec3) (h : p.x ≠ 0 ∨ p.y ≠ 0) :
    Vec3.length (kernGenerateCircularVelArrayBody p) =
      Real.sqrt (G * starMass / (Vec3.length p + EPSILON)) := by
  have hr : 0 < Vec3.length p + EPSILON :=
    add_pos_of_nonneg_of_pos (Vec3.length_nonneg p) EPSILON_pos
  have hcpos : 0 < Vec3.length
      ⟨p.y / (Vec3.length p + EPSILON), -(p.x / (Vec3.length p + EPSILON)), 0⟩ := by
    apply Vec3.length_pos_of_ne
    rcases h with h | h
    · exact Or.inr (Or.inl (neg_ne_zero.mpr (div_ne_zero h hr.ne')))
    · exact Or.inl (div_ne_zero h hr.ne')
  have hc : Vec3.cross (p / (Vec3.length p + EPSILON)) ⟨0, 0, 1⟩ =
      ⟨p.y / (Vec3.length p + EPSILON), -(p.x / (Vec3.length p + EPSILON)), 0⟩ := by
    rw [cross_unit_z]
    rfl
  have hbody : kernGenerateCircularVelArrayBody p =
      ⟨Real.sqrt (G * starMass / (Vec3.length p + EPSILON)) *
         (Vec3.normalize ⟨p.y / (Vec3.length p + EPSILON),
            -(p.x / (Vec3.length p + EPSILON)), 0⟩).x,
       Real.sqrt (G * starMass / (Vec3.length p + EPSILON)) *
         (Vec3.normalize ⟨p.y / (Vec3.length p + EPSILON),
            -(p.x / (Vec3.length p + EPSILON)), 0⟩).y,
       Real.sqrt (G * starMass / (Vec3.length p + EPSILON)) *
         (Vec3.normalize ⟨p.y / (Vec3.length p + EPSILON),
            -(p.x / (Vec3.length p + EPSILON)), 0⟩).z⟩ := by
    simp only [kernGenerateCircularVelArrayBody]
    rw [show (⟨p.x, p.y, p.z⟩ : Vec3) = p from rfl, hc]
  have hD : Vec3.length (Vec3.normalize
      ⟨p.y / (Vec3.length p + EPSILON), -(p.x / (Vec3.length p + EPSILON)), 0⟩) = 1 := by
    unfold Vec3.normalize
    rw [Vec3.length_div_scalar _ _ hcpos, div_self hcpos.ne']
  rw [hbody, Vec3.length_scalar_mul _ _ (Real.sqrt_nonneg _), hD, mul_one]

/-- The generated velocity is tangent to the position vector and has zero
vertical component, unconditionally. -/
theorem velBody_tangent (p : Vec3) :
    Vec3.dot (kernGenerateCircularVelArrayBody p) p = 0 ∧
    (kernGenerateCircularVelArrayBody p).z = 0 := by
  constructor
  · simp only [kernGenerateCircularVelArrayBody, Vec3.normalize, Vec3.cross, Vec3.dot,
      Vec3.div_x, Vec3.div_y, Vec3.div_z]
    ring
  · simp only [kernGenerateCircularVelArrayBody, Vec3.normalize, Vec3.cross,
      Vec3.div_x, Vec3.div_y, Vec3.div_z]
    ring

/-- The position generated for body `i` has length at most
`scale * sqrt 2.02` whenever the random draws lie in `[-1, 1]`. -/
theorem posBody_length_le (draw : ℕ → ℕ → ℝ) (t : ℕ) (scale : ℝ) (i : ℕ)
    (hdraw : ∀ s k, -1 ≤ draw s k ∧ draw s k ≤ 1) (hscale : 0 ≤ scale) :
    Vec3.length (kernGenerateRandomPosArrayBody draw t scale i) ≤
      scale * Real.sqrt 2.02 := by
  obtain ⟨hx1, hx2⟩ := hdraw (hash (i * t)) 0
  obtain ⟨hy1, hy2⟩ := hdraw (hash (i * t)) 1
  obtain ⟨hz1, hz2⟩ := hdraw (hash (i * t)) 2
  set rx := draw (hash (i * t)) 0 with hrx
  set ry := draw (hash (i * t)) 1 with hry
  set rz := draw (hash (i * t)) 2 with hrz
  have hq0 : (0 : ℝ) ≤ rx * rx + ry * ry := by nlinarith
  have hss : Real.sqrt (rx * rx + ry * ry) * Real.sqrt (rx * rx + ry * ry) =
      rx * rx + ry * ry := Real.mul_self_sqrt hq0
  have hbody : kernGenerateRandomPosArrayBody draw t scale i =
      ⟨scale * rx, scale * ry,
       0.1 * scale * Real.sqrt (rx * rx + ry * ry) * rz⟩ := rfl
  rw [hbody]
  unfold Vec3.length
  have hq2 : rx * rx + ry * ry ≤ 2 := by nlinarith
  have hrz2 : rz * rz ≤ 1 := by nlinarith
  have hsq : (0 : ℝ) ≤ scale * scale := mul_self_nonneg scale
  have h3 : scale * scale * (rx * rx + ry * ry) ≤ scale * scale * 2 :=
    mul_le_mul_of_nonneg_left hq2 hsq
  have h4 : scale * scale * ((rx * rx + ry * ry) * (rz * rz)) ≤ scale * scale * 2 := by
    have h5 : (rx * rx + ry * ry) * (rz * rz) ≤ 2 * 1 :=
      mul_le_mul hq2 hrz2 (mul_self_nonneg rz) (by norm_num)
    have h6 := mul_le_mul_of_nonneg_left h5 hsq
    linarith
  have hdot : Vec3.dot
      (⟨scale * rx, scale * ry, 0.1 * scale * Real.sqrt (rx * rx + ry * ry) * rz⟩ : Vec3)
      ⟨scale * rx, scale * ry, 0.1 * scale * Real.sqrt (rx * rx + ry * ry) * rz⟩ ≤
      scale * scale * 2.02 := by
    have expand : Vec3.dot
        (⟨scale * rx, scale * ry, 0.1 * scale * Real.sqrt (rx * rx + ry * ry) * rz⟩ : Vec3)
        ⟨scale * rx, scale * ry, 0.1 * scale * Real.sqrt (rx * rx + ry * ry) * rz⟩ =
        scale * scale * (rx * rx + ry * ry) +
          0.01 * (scale * scale * ((rx * rx + ry * ry) * (rz * rz))) := by
      simp only [Vec3.dot]
      linear_combination (0.01 * (scale * scale) * (rz * rz)) * hss
    rw [expand]
    linarith
  calc Real.sqrt (Vec3.dot
      (⟨scale * rx, scale * ry, 0.1 * scale * Real.sqrt (rx * rx + ry * ry) * rz⟩ : Vec3)
      ⟨scale * rx, scale * ry, 0.1 * scale * Real.sqrt (rx * rx + ry * ry) * rz⟩) ≤
        Real.sqrt (scale * scale * 2.02) := Real.sqrt_le_sqrt hdot
    _ = scale * Real.sqrt 2.02 := by
        rw [Real.sqrt_mul (mul_self_nonneg scale), Real.sqrt_mul_self hscale]

/-! ### Initializer claim theorems -/

/-- C5 counterexample: with draws of `0.9` (attainable for a uniform draw
from `[-1, 1]`), the body generated by the scene initialization at scale
`scene_scale` lies at distance strictly greater than `scene_scale` from the
origin — the x, y components range over a square of side `2 * scale`, not a
disc of radius `scale`. -/
theorem init_dist_exceeds_scale :
    scene_scale <
      Vec3.length ((initSimulation (fun _ _ => 9 / 10) 1 [0] [0]
        (fun _ => 0) (fun _ => 0)).1 0) := by
  have hpos : (initSimulation (fun _ _ => 9 / 10) 1 [0] [0]
      (fun _ => 0) (fun _ => 0)).1 0 =
      ⟨scene_scale * (9 / 10), scene_scale * (9 / 10),
       0.1 * scene_scale * Real.sqrt ((9 / 10) * (9 / 10) + (9 / 10) * (9 / 10)) *
         (9 / 10)⟩ := by
    simp only [initSimulation, initArrays, kernGenerateRandomPosArray]
    rw [writeKernel_apply, if_pos ⟨List.mem_singleton.mpr rfl, Nat.zero_lt_one⟩]
    rfl
  rw [hpos]
  unfold Vec3.length
  have hss : Real.sqrt ((9 / 10 : ℝ) * (9 / 10) + (9 / 10) * (9 / 10)) *
      Real.sqrt ((9 / 10 : ℝ) * (9 / 10) + (9 / 10) * (9 / 10)) =
      (9 / 10 : ℝ) * (9 / 10) + (9 / 10) * (9 / 10) :=
    Real.mul_self_sqrt (by norm_num)
  rw [show scene_scale = (100 : ℝ) from by norm_num [scene_scale]]
  rw [Real.lt_sqrt (by norm_num)]
  simp only [Vec3.dot]
  nlinarith [hss]

/-- C5 (amended): with all pseudo-random draws in `[-1, 1]` and a nonnegative
scale, every initialized body's distance from the origin lies within
`[0, scale * sqrt 2.02]` (the x, y components fill a square of side
`2 * scale`, and the vertical component is a thin spread proportional to the
planar radius, giving the `sqrt(2 + 0.02)` envelope). -/
theorem init_dist_bound :
    ∀ (draw : ℕ → ℕ → ℝ) (tPos tVel N : ℕ) (scale mass : ℝ)
      (oPos oVel : List ℕ) (p0 v0 : ℕ → Vec3),
      (∀ s k, -1 ≤ draw s k ∧ draw s k ≤ 1) → 0 ≤ scale →
      (∀ i, i < N → i ∈ oPos) →
      ∀ j, j < N →
        0 ≤ Vec3.length ((initArrays draw tPos tVel N scale mass oPos oVel p0 v0).1 j) ∧
        Vec3.length ((initArrays draw tPos tVel N scale mass oPos oVel p0 v0).1 j) ≤
          scale * Real.sqrt 2.02 := by
  intro draw tPos tVel N scale mass oPos oVel p0 v0 hdraw hscale hord j hj
  have hpos : (initArrays draw tPos tVel N scale mass oPos oVel p0 v0).1 j =
      kernGenerateRandomPosArrayBody draw tPos scale j := by
    simp only [initArrays, kernGenerateRandomPosArray]
    rw [writeKernel_apply, if_pos ⟨hord j hj, hj⟩]
  rw [hpos]
  exact ⟨Vec3.length_nonneg _, posBody_length_le draw tPos scale j hdraw hscale⟩

/-- Witness for C5 (amended) with one body and constant zero draws. -/
theorem init_dist_bound_witness :
    0 ≤ Vec3.length ((initArrays (fun _ _ => 0) 1 2 1 1 1 [0] [0]
        (fun _ => 0) (fun _ => 0)).1 0) ∧
    Vec3.length ((initArrays (fun _ _ => 0) 1 2 1 1 1 [0] [0]
        (fun _ => 0) (fun _ => 0)).1 0) ≤ 1 * Real.sqrt 2.02 :=
  init_dist_bound (fun _ _ => 0) 1 2 1 1 1 [0] [0] (fun _ => 0) (fun _ => 0)
    (fun _ _ => by norm_num) (by norm_num)
    (fun i hi => by interval_cases i; simp) 0 (by norm_num)

/-- C6 counterexample: for the body position `(3, 4, 12)` the generated
velocity's magnitude is `sqrt(G * starMass / (13 + EPSILON))` — computed
from the full 3-D length 13 — and differs from the value
`sqrt(G * starMass / (sqrt(3² + 4²) + EPSILON))` that the claimed planar
distance (5) would give. -/
theorem vel_speed_not_planar :
    Vec3.length (kernGenerateCircularVelArrayBody ⟨3, 4, 12⟩) ≠
      Real.sqrt (G * starMass / (Real.sqrt (3 ^ 2 + 4 ^ 2) + EPSILON)) := by
  have h1 : Vec3.length (⟨3, 4, 12⟩ : Vec3) = 13 := by
    show Real.sqrt ((3 : ℝ) * 3 + 4 * 4 + 12 * 12) = 13
    rw [show (3 : ℝ) * 3 + 4 * 4 + 12 * 12 = 13 ^ 2 by norm_num]
    exact Real.sqrt_sq (by norm_num)
  have h2 : Real.sqrt ((3 : ℝ) ^ 2 + 4 ^ 2) = 5 := by
    rw [show (3 : ℝ) ^ 2 + 4 ^ 2 = 5 ^ 2 by norm_num]
    exact Real.sqrt_sq (by norm_num)
  rw [velBody_length ⟨3, 4, 12⟩ (Or.inl (show (3 : ℝ) ≠ 0 by norm_num)), h1, h2]
  have hGM : (0 : ℝ) < G * starMass := by norm_num [G, starMass]
  apply ne_of_lt
  apply Real.sqrt_lt_sqrt
  · exact div_nonneg hGM.le (by norm_num [EPSILON])
  · apply div_lt_div_of_pos_left hGM (by norm_num [EPSILON]) (by norm_num [EPSILON])

/-- C6 (amended): for every body position off the vertical axis, the
generated velocity has magnitude `sqrt(G * starMass / r)` where `r` is the
full 3-D distance of the position from the origin with `EPSILON` added (not
the planar distance), and its direction — the normalized cross product of
the unit radial vector with the vertical axis — is tangent to the position
vector and perpendicular to the vertical axis. -/
theorem vel_speed_radial3d :
    ∀ p : Vec3, p.x ≠ 0 ∨ p.y ≠ 0 →
      Vec3.length (kernGenerateCircularVelArrayBody p) =
        Real.sqrt (G * starMass / (Vec3.length p + EPSILON)) ∧
      Vec3.dot (kernGenerateCircularVelArrayBody p) p = 0 ∧
      (kernGenerateCircularVelArrayBody p).z = 0 :=
  fun p h => ⟨velBody_length p h, velBody_tangent p⟩

/-- Witness for C6 (amended) at the position `(1, 0, 0)`. -/
theorem vel_speed_radial3d_witness :
    Vec3.length (kernGenerateCircularVelArrayBody ⟨1, 0, 0⟩) =
      Real.sqrt (G * starMass / (Vec3.length (⟨1, 0, 0⟩ : Vec3) + EPSILON)) ∧
    Vec3.dot (kernGenerateCircularVelArrayBody ⟨1, 0, 0⟩) ⟨1, 0, 0⟩ = 0 ∧
    (kernGenerateCircularVelArrayBody ⟨1, 0, 0⟩).z = 0 :=
  vel_speed_radial3d ⟨1, 0, 0⟩ (Or.inl (show (1 : ℝ) ≠ 0 by norm_num))

end Nbody
